import Mathlib

/-!
Verification of the dsv-pdf-web frontend and of the spec-described
extraction pipeline, as a shallow embedding in Lean 4.

The embedded code:
* `src/frontend/src/components/ResultsDisplay.jsx` — results table and
  clipboard export (columns, cell rendering);
* `src/unnamed/part_001` — `DownloadButtons` component (download panel);
* `src/frontend/src/App.jsx` — the sequential file-processing queue;
* `src/frontend/src/services/api.js` — axios instance and upload call;
* `src/unnamed/part_000` — the auth service (`login`, `logout`,
  `getToken`, `getUser`, `isAuthenticated`);
* the Output Writer / Reconciliation invariants of the backend pipeline,
  which is not in the frontend sources, are modelled from the spec where
  noted.

JavaScript values appearing in records are modelled by `JsValue`;
`undefined` (a missing object property) is modelled by `Option.none` at
each access site. JS string ordering is modelled by Lean's lexicographic
`String` order (they agree on code points below the surrogate range).
-/

/-- A JavaScript value as it can appear in an extracted record:
`null`, booleans, numbers (modelled as integers), strings, arrays. -/
inductive JsValue where
  | vNull
  | vBool (b : Bool)
  | vNum (n : Int)
  | vStr (s : String)
  | vArr (elems : List JsValue)
deriving Repr

/-- A JS object used as an extracted record: ordered key/value pairs,
as enumerated by `Object.keys`. -/
abbrev JsRecord := List (String × JsValue)

/-- `Object.keys(record)`: the record's own keys in insertion order. -/
def recordKeys (r : JsRecord) : List String := r.map Prod.fst

mutual
/-- JS `String(value)` conversion: `null` prints "null", booleans print
"true"/"false", numbers print decimally, strings are themselves, arrays
print as their comma-joined elements (`Array.prototype.toString`). -/
def jsStringOf : JsValue → String
  | .vNull => "null"
  | .vBool b => cond b "true" "false"
  | .vNum n => toString n
  | .vStr s => s
  | .vArr elems => String.intercalate "," (joinParts elems)

/-- Element conversion used by `Array.prototype.join`: a `null` element
contributes the empty string, every other element its `String(·)` form. -/
def joinParts : List JsValue → List String
  | [] => []
  | .vNull :: rest => "" :: joinParts rest
  | v :: rest => jsStringOf v :: joinParts rest
end

/-- Single-element form of `joinParts`. -/
def joinElem (v : JsValue) : String :=
  match v with
  | .vNull => ""
  | v => jsStringOf v

theorem joinParts_eq_map (l : List JsValue) : joinParts l = l.map joinElem := by
  induction l with
  | nil => rfl
  | cons v rest ih => cases v <;> simp [joinParts, joinElem, ih]

/-- ResultsDisplay.jsx lines 17–22: `allKeys` is the set of keys over all
records, first-occurrence order (a JS `Set` preserves insertion order). -/
def allKeys (records : List JsRecord) : List String :=
  (records.flatMap recordKeys).dedup

/-- ResultsDisplay.jsx line 22: `columns = Array.from(allKeys).sort()` —
default JS sort = ascending lexicographic string order (stable). -/
def columns (records : List JsRecord) : List String :=
  List.insertionSort (· ≤ ·) (allKeys records)

/-- ResultsDisplay.jsx lines 82–92 (table body): the displayed cell for
`record` in column `key`. A missing property reads as `undefined`
(`none` here); `null`/`undefined` display "-", arrays display their
`join(', ')`, anything else its `String(·)` form. -/
def displayCell (record : JsRecord) (key : String) : String :=
  match List.lookup key record with
  | none => "-"
  | some .vNull => "-"
  | some (.vArr elems) => String.intercalate ", " (joinParts elems)
  | some v => jsStringOf v

/-- ResultsDisplay.jsx lines 31–38 (`copyToClipboard` rows): the cell text
placed in the clipboard export for `record` in column `key`. -/
def clipboardCell (record : JsRecord) (key : String) : String :=
  match List.lookup key record with
  | none => "-"
  | some .vNull => "-"
  | some (.vArr elems) => String.intercalate ", " (joinParts elems)
  | some v => jsStringOf v

/-- ResultsDisplay.jsx line 37: one tab-separated clipboard row. -/
def clipboardRow (cols : List String) (record : JsRecord) : String :=
  String.intercalate "\t" (cols.map (clipboardCell record))

theorem displayCell_eq_clipboardCell (record : JsRecord) (key : String) :
    displayCell record key = clipboardCell record key := by
  unfold displayCell clipboardCell
  rfl

/-- C1 counterexample: the claim says a missing-key or null cell renders
as *empty*; at the record `{}` and key "a" the displayed cell is "-",
and at `{a: null}` the clipboard cell is "-" — not the empty string. -/
theorem c1_counterexample :
    displayCell [] "a" = "-" ∧
    clipboardCell [("a", JsValue.vNull)] "a" = "-" ∧
    ("-" : String) ≠ "" := by
  exact ⟨rfl, rfl, by decide⟩

/-- C1 (amended): a record with no value for a column key (missing key or
null value) renders that cell as the placeholder "-" — never as "null"
or "undefined" — both in the displayed table and in the clipboard
export. -/
theorem c1_missing_or_null_renders_dash (record : JsRecord) (key : String)
    (h : List.lookup key record = none ∨
         List.lookup key record = some JsValue.vNull) :
    displayCell record key = "-" ∧ clipboardCell record key = "-" ∧
    ("-" : String) ≠ "null" ∧ ("-" : String) ≠ "undefined" := by
  unfold displayCell clipboardCell
  rcases h with h | h <;> rw [h] <;> exact ⟨rfl, rfl, by decide, by decide⟩

theorem c1_missing_or_null_renders_dash_witness :
    displayCell [("a", JsValue.vNull)] "a" = "-" ∧
    clipboardCell [("a", JsValue.vNull)] "a" = "-" ∧
    ("-" : String) ≠ "null" ∧ ("-" : String) ≠ "undefined" :=
  c1_missing_or_null_renders_dash [("a", JsValue.vNull)] "a" (Or.inr rfl)

/-- C2: for a non-empty record list the table's columns are exactly the
union of the keys of all records, with no duplicates, in strictly
ascending sorted order. -/
theorem c2_columns_sorted_union (records : List JsRecord)
    (hne : records ≠ []) :
    List.Sorted (· < ·) (columns records) ∧
    (∀ k, k ∈ columns records ↔ ∃ r ∈ records, k ∈ recordKeys r) := by
  have hperm := List.perm_insertionSort (α := String) (· ≤ ·) (allKeys records)
  have hnodup : (columns records).Nodup :=
    hperm.nodup_iff.mpr (List.nodup_dedup _)
  have hsorted : List.Sorted (· ≤ ·) (columns records) :=
    List.sorted_insertionSort (· ≤ ·) (allKeys records)
  refine ⟨hsorted.lt_of_le hnodup, fun k => ?_⟩
  have hmem : k ∈ columns records ↔ k ∈ allKeys records := hperm.mem_iff
  rw [hmem]
  simp only [allKeys, List.mem_dedup, List.mem_flatMap]

theorem c2_columns_sorted_union_witness :
    (([[("b", JsValue.vNull)], [("a", JsValue.vStr "x")]] : List JsRecord) ≠
      []) ∧
    (List.Sorted (· < ·)
        (columns [[("b", JsValue.vNull)], [("a", JsValue.vStr "x")]]) ∧
      (∀ k, k ∈ columns [[("b", JsValue.vNull)], [("a", JsValue.vStr "x")]] ↔
        ∃ r ∈ [[("b", JsValue.vNull)], [("a", JsValue.vStr "x")]],
          k ∈ recordKeys r)) :=
  ⟨List.cons_ne_nil _ _,
   c2_columns_sorted_union [[("b", JsValue.vNull)], [("a", JsValue.vStr "x")]]
     (List.cons_ne_nil _ _)⟩

/-- C3: a field whose value is an array renders — in the table cell and
in the clipboard cell alike — as its elements joined by the delimiter
", " into one flat string; in particular an array of strings renders as
exactly those strings interleaved with ", ". -/
theorem c3_array_renders_joined (record : JsRecord) (key : String)
    (elems : List JsValue)
    (h : List.lookup key record = some (JsValue.vArr elems)) :
    displayCell record key = String.intercalate ", " (elems.map joinElem) ∧
    clipboardCell record key = String.intercalate ", " (elems.map joinElem) ∧
    (∀ ss : List String, elems = ss.map JsValue.vStr →
      displayCell record key = String.intercalate ", " ss) := by
  have hd : displayCell record key = String.intercalate ", " (joinParts elems) := by
    unfold displayCell
    rw [h]
  have hc : clipboardCell record key = String.intercalate ", " (joinParts elems) := by
    unfold clipboardCell
    rw [h]
  refine ⟨by rw [hd, joinParts_eq_map], by rw [hc, joinParts_eq_map], ?_⟩
  rintro ss rfl
  rw [hd, joinParts_eq_map, List.map_map]
  congr 1
  exact (List.map_congr_left fun s _ => rfl).trans (List.map_id ss)

theorem c3_array_renders_joined_witness :
    displayCell [("hs", JsValue.vArr [JsValue.vStr "A", JsValue.vStr "B"])] "hs" =
      String.intercalate ", " ([JsValue.vStr "A", JsValue.vStr "B"].map joinElem) ∧
    clipboardCell [("hs", JsValue.vArr [JsValue.vStr "A", JsValue.vStr "B"])] "hs" =
      String.intercalate ", " ([JsValue.vStr "A", JsValue.vStr "B"].map joinElem) ∧
    (∀ ss : List String,
      [JsValue.vStr "A", JsValue.vStr "B"] = ss.map JsValue.vStr →
      displayCell [("hs", JsValue.vArr [JsValue.vStr "A", JsValue.vStr "B"])] "hs" =
        String.intercalate ", " ss) :=
  c3_array_renders_joined
    [("hs", JsValue.vArr [JsValue.vStr "A", JsValue.vStr "B"])] "hs"
    [JsValue.vStr "A", JsValue.vStr "B"] rfl

/-! ## DownloadButtons (src/unnamed/part_001) and the Output Writer -/

/-- JS truthiness of a value that is either a string or null/undefined:
null, undefined and the empty string are falsy. -/
def jsTruthyStr : Option String → Bool
  | none => false
  | some s => !(s == "")

/-- part_001 lines 26–29 (`getFilenameFromPath`): a null/empty path gives
null, otherwise the last segment of `path.split('/')` (`.pop()`). -/
def getFilenameFromPath : Option String → Option String
  | none => none
  | some path => if path = "" then none else (path.splitOn "/").getLast?

/-- The `output_files` object of the backend response (README: `csv`,
`mrn_pdf`, `csv_download`, `mrn_pdf_download`, each a path or absent). -/
structure OutputFiles where
  csv : Option String := none
  csv_download : Option String := none
  mrn_pdf : Option String := none
  mrn_pdf_download : Option String := none

/-- part_001 lines 31–33: the CSV filename, preferring `csv_download`. -/
def csvFilename (f : OutputFiles) : Option String :=
  if jsTruthyStr f.csv_download then getFilenameFromPath f.csv_download
  else getFilenameFromPath f.csv

/-- part_001 lines 35–37: the MRN PDF filename, preferring
`mrn_pdf_download`. -/
def pdfFilename (f : OutputFiles) : Option String :=
  if jsTruthyStr f.mrn_pdf_download then getFilenameFromPath f.mrn_pdf_download
  else getFilenameFromPath f.mrn_pdf

/-- What the `DownloadButtons` component renders: which buttons exist,
whether they are disabled, and whether the "no files" placeholder or the
error box shows. -/
structure DownloadPanel where
  csvButton : Bool
  csvButtonDisabled : Bool
  pdfButton : Bool
  pdfButtonDisabled : Bool
  placeholder : Bool
  errorShown : Bool

/-- part_001 lines 8–10 and 39–78: the rendered panel. The component
renders nothing when `!jobId || !outputFiles`; each button renders only
when its filename is truthy (`{csvFilename && <button .../>}`), with
`disabled={downloading !== null}`; the placeholder renders when neither
filename is truthy. -/
def renderDownloadButtons (jobId : Option String)
    (outputFiles : Option OutputFiles) (downloading : Option String)
    (error : Option String) : Option DownloadPanel :=
  if !(jsTruthyStr jobId) then none
  else
    match outputFiles with
    | none => none
    | some f =>
        some {
          csvButton := jsTruthyStr (csvFilename f)
          csvButtonDisabled := downloading.isSome
          pdfButton := jsTruthyStr (pdfFilename f)
          pdfButtonDisabled := downloading.isSome
          placeholder := !(jsTruthyStr (csvFilename f)) &&
            !(jsTruthyStr (pdfFilename f))
          errorShown := jsTruthyStr error
        }

/-- The component's local state: `downloading` (file type of the pending
download or null) and `error`. -/
structure DownloadState where
  downloading : Option String
  error : Option String
deriving Repr, DecidableEq

/-- part_001 lines 12–15 (`handleDownload` entry): with a truthy filename
the pending file type is recorded and the error cleared; with a falsy
filename nothing happens. -/
def handleDownloadStart (fileType : String) (filename : Option String)
    (s : DownloadState) : DownloadState :=
  if jsTruthyStr filename then { downloading := some fileType, error := none }
  else s

/-- part_001 lines 16–22 (`handleDownload` settling): on failure the
`catch` records the message; in both cases the `finally` clears
`downloading`. -/
def handleDownloadSettle (outcome : Except String Unit)
    (s : DownloadState) : DownloadState :=
  match outcome with
  | .ok _ => { s with downloading := none }
  | .error msg => { downloading := none, error := some msg }

/-- A UI event hitting the download panel. -/
inductive DownloadEvent where
  | click (fileType : String) (filename : Option String)
  | settle (outcome : Except String Unit)

/-- One step of the panel: a click reaches `handleDownload` only while the
buttons are enabled (`disabled={downloading !== null}` suppresses
`onClick`); a settle event applies the catch/finally of the pending
request. -/
def downloadStep (ev : DownloadEvent) (s : DownloadState) : DownloadState :=
  match ev with
  | .click fileType filename =>
      if s.downloading.isSome then s
      else handleDownloadStart fileType filename s
  | .settle outcome =>
      if s.downloading.isSome then handleDownloadSettle outcome s else s

/-- Modelled from the spec: the Output Writer's `writeMrnPdf` is backend
code (`pdf_processor.py`) not present in the frontend sources. §4.4: "if
PageTypeMap[\"MRN\"] is empty, no PDF is produced"; otherwise the MRN
pages are copied in ascending original order into a new PDF; §7: a
referenced page index out of the document's range is a
`PageIndexOutOfRange` error, never silently clamped. Pages are modelled
by their content strings; indices are 1-based. -/
def writeMrnPdf (doc : List String) (mrnPages : List Nat) :
    Except String (Option (List String)) :=
  if mrnPages = [] then .ok none
  else if mrnPages.all (fun i => decide (1 ≤ i) && decide (i ≤ doc.length)) then
    .ok (some (mrnPages.filterMap (fun i => doc.get? (i - 1))))
  else .error "PageIndexOutOfRange"

/-- Modelled from the spec: assembly of `output_files` in the backend
response (README §API: `csv`/`csv_download` always present after a
successful run, `mrn_pdf`/`mrn_pdf_download` only "if present"; spec
scenario: with zero MRN pages `output_files` contains no MRN entry). -/
def mkOutputFiles (csvPath csvDownload : String)
    (mrnPdfPath mrnPdfDownload : Option String) : OutputFiles :=
  { csv := some csvPath, csv_download := some csvDownload,
    mrn_pdf := mrnPdfPath, mrn_pdf_download := mrnPdfDownload }

/-- C4: with zero MRN pages, `writeMrnPdf` returns no path and no error,
`output_files` carries no MRN entry, the panel renders no MRN download
button, and when neither file exists the panel shows the no-files
placeholder. -/
theorem c4_no_mrn_pages_is_normal (doc : List String)
    (csvPath csvDownload jobId : String) (hjob : jobId ≠ "") :
    writeMrnPdf doc [] = .ok none ∧
    (mkOutputFiles csvPath csvDownload none none).mrn_pdf = none ∧
    (mkOutputFiles csvPath csvDownload none none).mrn_pdf_download = none ∧
    (∀ p ∈ renderDownloadButtons (some jobId)
        (some (mkOutputFiles csvPath csvDownload none none)) none none,
      p.pdfButton = false) ∧
    (∀ p ∈ renderDownloadButtons (some jobId) (some {}) none none,
      p.placeholder = true) := by
  have hj : jsTruthyStr (some jobId) = true := by
    simp [jsTruthyStr, hjob]
  refine ⟨rfl, rfl, rfl, ?_, ?_⟩ <;>
    · intro p hp
      simp only [renderDownloadButtons, hj, Bool.not_true, Bool.false_eq_true,
        if_false, Option.mem_def, Option.some.injEq] at hp
      subst hp
      simp [pdfFilename, csvFilename, mkOutputFiles, jsTruthyStr,
        getFilenameFromPath]

theorem c4_no_mrn_pages_is_normal_witness :
    writeMrnPdf ["page one", "page two"] [] = .ok none ∧
    (mkOutputFiles "out/d.csv" "/api/download/csv/j/d.csv" none none).mrn_pdf
      = none ∧
    (mkOutputFiles "out/d.csv" "/api/download/csv/j/d.csv" none
        none).mrn_pdf_download = none ∧
    (∀ p ∈ renderDownloadButtons (some "job1")
        (some (mkOutputFiles "out/d.csv" "/api/download/csv/j/d.csv" none none))
        none none,
      p.pdfButton = false) ∧
    (∀ p ∈ renderDownloadButtons (some "job1") (some {}) none none,
      p.placeholder = true) :=
  c4_no_mrn_pages_is_normal ["page one", "page two"] "out/d.csv"
    "/api/download/csv/j/d.csv" "job1" (by decide)

/-- Modelled from the spec: §4.3/§3 — the Reconciliation Engine is backend
code not present in the frontend sources. The finalized
`page_types["MRN"]` is the union of pages assigned under any rule,
deduplicated and sorted ascending ("Deduplication and ascending sort are
mandatory invariants"), whatever order the pages were discovered in. -/
def finalizeMrnPages (collected : List Nat) : List Nat :=
  List.insertionSort (· ≤ ·) collected.dedup

theorem filterMap_get_pages (doc : List String) :
    ∀ l : List Nat, (∀ i ∈ l, i - 1 < doc.length) →
      l.filterMap (fun i => doc.get? (i - 1)) =
        l.map (fun i => (doc.get? (i - 1)).getD "") := by
  intro l
  induction l with
  | nil => intro _; rfl
  | cons i t ih =>
    intro h
    have hi : i - 1 < doc.length := h i (List.mem_cons_self i t)
    obtain ⟨v, hv⟩ : ∃ v, doc.get? (i - 1) = some v :=
      ⟨doc.get ⟨i - 1, hi⟩, List.get?_eq_get hi⟩
    have hv2 : doc[i - 1]? = some v := by
      rw [← List.get?_eq_getElem?]
      exact hv
    have ih2 := ih (fun j hj => h j (List.mem_cons_of_mem _ hj))
    simp only [List.get?_eq_getElem?] at ih2
    simp [List.filterMap_cons, hv2, ih2]

/-- C7: the finalized MRN page list has no duplicate indices and is
sorted strictly ascending regardless of the order pages were collected,
holds exactly the collected pages, and is exactly the sequence of pages
written to the derivative MRN PDF — one output page per finalized index,
in that ascending order. -/
theorem c7_finalized_mrn_pages (collected : List Nat) (doc : List String)
    (hvalid : ∀ i ∈ finalizeMrnPages collected, 1 ≤ i ∧ i ≤ doc.length) :
    (finalizeMrnPages collected).Nodup ∧
    List.Sorted (· < ·) (finalizeMrnPages collected) ∧
    (∀ i, i ∈ finalizeMrnPages collected ↔ i ∈ collected) ∧
    writeMrnPdf doc (finalizeMrnPages collected) =
      .ok (if finalizeMrnPages collected = [] then none
        else some ((finalizeMrnPages collected).map
          (fun i => (doc.get? (i - 1)).getD ""))) := by
  have hperm := List.perm_insertionSort (α := Nat) (· ≤ ·) collected.dedup
  have hnodup : (finalizeMrnPages collected).Nodup :=
    hperm.nodup_iff.mpr (List.nodup_dedup _)
  have hsorted : List.Sorted (· ≤ ·) (finalizeMrnPages collected) :=
    List.sorted_insertionSort (· ≤ ·) collected.dedup
  refine ⟨hnodup, hsorted.lt_of_le hnodup, ?_, ?_⟩
  · intro i
    have hmem : i ∈ finalizeMrnPages collected ↔ i ∈ collected.dedup :=
      hperm.mem_iff
    rw [hmem, List.mem_dedup]
  · unfold writeMrnPdf
    by_cases hemp : finalizeMrnPages collected = []
    · rw [if_pos hemp, if_pos hemp]
    · rw [if_neg hemp, if_neg hemp]
      have hall : (finalizeMrnPages collected).all
          (fun i => decide (1 ≤ i) && decide (i ≤ doc.length)) = true := by
        rw [List.all_eq_true]
        intro i hi
        obtain ⟨h1, h2⟩ := hvalid i hi
        simp [h1, h2]
      rw [if_pos hall]
      have := filterMap_get_pages doc (finalizeMrnPages collected)
        (fun i hi => by obtain ⟨h1, h2⟩ := hvalid i hi; omega)
      rw [this]

theorem c7_finalized_mrn_pages_witness :
    (∀ i ∈ finalizeMrnPages [3, 1, 3, 2], 1 ≤ i ∧ i ≤
      (["pa", "pb", "pc"] : List String).length) ∧
    ((finalizeMrnPages [3, 1, 3, 2]).Nodup ∧
      List.Sorted (· < ·) (finalizeMrnPages [3, 1, 3, 2]) ∧
      (∀ i, i ∈ finalizeMrnPages [3, 1, 3, 2] ↔ i ∈ [3, 1, 3, 2]) ∧
      writeMrnPdf ["pa", "pb", "pc"] (finalizeMrnPages [3, 1, 3, 2]) =
        .ok (if finalizeMrnPages [3, 1, 3, 2] = [] then none
          else some ((finalizeMrnPages [3, 1, 3, 2]).map
            (fun i => ((["pa", "pb", "pc"] : List String).get? (i - 1)).getD
              "")))) :=
  ⟨by decide, c7_finalized_mrn_pages [3, 1, 3, 2] ["pa", "pb", "pc"]
    (by decide)⟩

/-- C10: at most one download is in flight at any time: while
`downloading` is non-null both rendered buttons are disabled, a click
while a download is pending leaves the state unchanged, and settling a
download — success or failure — always clears the pending state. -/
theorem c10_single_download_in_flight :
    (∀ (jobId : Option String) (f : OutputFiles) (d e : Option String)
        (p : DownloadPanel),
      renderDownloadButtons jobId (some f) d e = some p → d.isSome = true →
      p.csvButtonDisabled = true ∧ p.pdfButtonDisabled = true) ∧
    (∀ (outcome : Except String Unit) (s : DownloadState),
      (handleDownloadSettle outcome s).downloading = none) ∧
    (∀ (ft : String) (fn : Option String) (s : DownloadState),
      s.downloading.isSome = true → downloadStep (.click ft fn) s = s) := by
  refine ⟨?_, ?_, ?_⟩
  · intro jobId f d e p hp hd
    unfold renderDownloadButtons at hp
    by_cases hj : jsTruthyStr jobId = true
    · rw [hj] at hp
      simp only [Bool.not_true, Bool.false_eq_true, if_false,
        Option.some.injEq] at hp
      subst hp
      exact ⟨hd, hd⟩
    · rw [Bool.not_eq_true] at hj
      rw [hj] at hp
      simp at hp
  · intro outcome s
    cases outcome <;> rfl
  · intro ft fn s h
    unfold downloadStep
    rw [h]
    rfl

theorem c10_single_download_in_flight_witness :
    ((⟨false, true, false, true, true, false⟩ :
        DownloadPanel).csvButtonDisabled = true ∧
      (⟨false, true, false, true, true, false⟩ :
        DownloadPanel).pdfButtonDisabled = true) ∧
    (handleDownloadSettle (.error "net down")
        ⟨some "csv", none⟩).downloading = none ∧
    downloadStep (.click "csv" (some "d.csv")) ⟨some "mrn_pdf", none⟩ =
      ⟨some "mrn_pdf", none⟩ :=
  ⟨c10_single_download_in_flight.1 (some "j") {} (some "csv") none _ rfl rfl,
   c10_single_download_in_flight.2.1 (.error "net down") ⟨some "csv", none⟩,
   c10_single_download_in_flight.2.2 "csv" (some "d.csv")
     ⟨some "mrn_pdf", none⟩ rfl⟩

/-! ## App.jsx processing queue -/

/-- One entry of `processedFiles` (App.jsx lines 77–98): the file, its
status, and either the result or the error message. Results are
abstracted as strings. -/
structure ProcessedFile where
  fileName : String
  success : Bool
  result : Option String
  error : Option String
deriving Repr, DecidableEq

/-- App.jsx lines 63–103 (`processNextFile`): the file is uploaded and
awaited; a success appends a success entry holding the result, a failure
appends an error entry holding `err.message || 'Chyba při zpracování'`.
The network outcome is abstracted as a function of the file. -/
def processNextFile (outcome : String → Except String String)
    (fileName : String) : ProcessedFile :=
  match outcome fileName with
  | .ok r =>
      { fileName := fileName, success := true, result := some r, error := none }
  | .error msg =>
      { fileName := fileName, success := false, result := none,
        error := some (if msg = "" then "Chyba při zpracování" else msg) }

/-- The queue-related component state of App.jsx (lines 18–21). -/
structure AppQueueState where
  queue : List String
  currentFileIndex : Nat
  isProcessing : Bool
  processedFiles : List ProcessedFile
deriving Repr, DecidableEq

/-- App.jsx lines 105–120 (the `processQueue` effect): while processing,
if the current index is in range the file at that index is processed to
completion — `await processNextFile(queue[currentFileIndex])` — and its
entry is appended before the index advances; past the end of the queue,
processing stops. Under JS run-to-completion semantics each effect
invocation is one atomic step; nothing else runs while a file is in
flight, so one step handles exactly one file. -/
def processQueueStep (outcome : String → Except String String)
    (s : AppQueueState) : AppQueueState :=
  if s.isProcessing then
    match s.queue.get? s.currentFileIndex with
    | some file =>
        { s with
          processedFiles := s.processedFiles ++ [processNextFile outcome file]
          currentFileIndex := s.currentFileIndex + 1 }
    | none => { s with isProcessing := false }
  else s

/-- The effect loop: the `processQueue` effect re-fires after each state
change; `n` bounds the number of firings. -/
def runQueue (outcome : String → Except String String)
    (s : AppQueueState) : Nat → AppQueueState
  | 0 => s
  | n + 1 => runQueue outcome (processQueueStep outcome s) n

/-- App.jsx lines 122–128 (`handleFileSelect`): selected files are
appended to the queue and processing is switched on. -/
def handleFileSelect (files : List String) (s : AppQueueState) :
    AppQueueState :=
  { s with queue := s.queue ++ files, isProcessing := true }

theorem runQueue_inv (outcome : String → Except String String)
    (queue : List String) :
    ∀ (n i : Nat) (acc : List ProcessedFile), i + n ≤ queue.length →
      runQueue outcome ⟨queue, i, true, acc⟩ n =
        ⟨queue, i + n, true,
          acc ++ ((queue.drop i).take n).map (processNextFile outcome)⟩ := by
  intro n
  induction n with
  | zero =>
    intro i acc h
    simp [runQueue]
  | succ n ih =>
    intro i acc h
    have hi : i < queue.length := by omega
    have hv : queue.get? i = some (queue.get ⟨i, hi⟩) := List.get?_eq_get hi
    have hdrop : queue.drop i = queue.get ⟨i, hi⟩ :: queue.drop (i + 1) :=
      List.drop_eq_getElem_cons hi
    rw [runQueue]
    unfold processQueueStep
    simp only [if_true, hv]
    rw [ih (i + 1) _ (by omega)]
    rw [hdrop]
    have harith : i + 1 + n = i + (n + 1) := by omega
    rw [harith, List.take_succ_cons, List.map_cons]
    simp [List.append_assoc]

theorem runQueue_succ (outcome : String → Except String String) :
    ∀ (n : Nat) (s : AppQueueState),
      runQueue outcome s (n + 1) =
        processQueueStep outcome (runQueue outcome s n) := by
  intro n
  induction n with
  | zero =>
    intro s
    rfl
  | succ n ih =>
    intro s
    rw [runQueue, runQueue]
    exact ih (processQueueStep outcome s)

/-- C5: files are processed strictly sequentially in the order they were
added: starting the batch from the idle state, after `k` effect steps
exactly the first `k` queued files have entries in `processedFiles` — in
queue order, one entry each, every entry (success or error) recorded
before the next index is taken — and one step after the queue is
exhausted the batch ends with every file processed exactly once. Each
step handles a single file, so at most one file is in flight at any
time. -/
theorem c5_sequential_queue (outcome : String → Except String String)
    (files : List String) :
    (∀ k, k ≤ files.length →
      runQueue outcome (handleFileSelect files ⟨[], 0, false, []⟩) k =
        ⟨files, k, true, (files.take k).map (processNextFile outcome)⟩) ∧
    runQueue outcome (handleFileSelect files ⟨[], 0, false, []⟩)
        (files.length + 1) =
      ⟨files, files.length, false, files.map (processNextFile outcome)⟩ := by
  have hstart : handleFileSelect files ⟨[], 0, false, []⟩ =
      (⟨files, 0, true, []⟩ : AppQueueState) := by
    simp [handleFileSelect]
  constructor
  · intro k hk
    rw [hstart]
    have := runQueue_inv outcome files k 0 [] (by omega)
    simpa using this
  · rw [hstart]
    have hrun : runQueue outcome ⟨files, 0, true, []⟩ files.length =
        ⟨files, files.length, true, files.map (processNextFile outcome)⟩ := by
      have := runQueue_inv outcome files files.length 0 [] (by omega)
      simpa using this
    rw [runQueue_succ outcome files.length, hrun]
    unfold processQueueStep
    have hnone : files.get? files.length = none :=
      List.get?_eq_none.mpr (Nat.le_refl _)
    simp [hnone]

theorem c5_sequential_queue_witness :
    (1 ≤ (["a.pdf", "b.pdf"] : List String).length) ∧
    runQueue (fun f => if f = "a.pdf" then .ok "r" else .error "boom")
        (handleFileSelect ["a.pdf", "b.pdf"] ⟨[], 0, false, []⟩) 1 =
      ⟨["a.pdf", "b.pdf"], 1, true,
        ((["a.pdf", "b.pdf"] : List String).take 1).map
          (processNextFile
            (fun f => if f = "a.pdf" then .ok "r" else .error "boom"))⟩ :=
  ⟨by decide,
   (c5_sequential_queue (fun f => if f = "a.pdf" then .ok "r" else .error "boom")
      ["a.pdf", "b.pdf"]).1 1 (by decide)⟩

/-! ## api.js: axios instance and upload error handling -/

/-- api.js line 11: the axios instance timeout, in milliseconds
("5 minut pro zpracování velkých souborů"). -/
def apiTimeoutMs : Nat := 300000

/-- api.js lines 9–12 and 24–36: the timeout under which the
`/process-pdf/` request of `uploadAndProcessPDF` runs. The per-request
config sets only headers and an upload-progress callback, never a
timeout, so every call runs under the instance timeout — independent of
the file and of the caller's progress callback (the only caller
inputs). -/
def uploadTimeoutMs (fileName : String) (hasProgressCallback : Bool) : Nat :=
  apiTimeoutMs

/-- JS `a || b` on nullable strings: falls through on null/undefined and
on the empty string. -/
def jsOrStr (a b : Option String) : Option String :=
  if jsTruthyStr a then a else b

/-- JS `a || dflt` with a string literal default. -/
def jsOrDefault (a : Option String) (dflt : String) : String :=
  if jsTruthyStr a then a.getD dflt else dflt

/-- api.js line 5: `import.meta.env.VITE_API_URL || 'http://localhost:8000'`. -/
def apiBaseUrl (viteApiUrl : Option String) : String :=
  jsOrDefault viteApiUrl "http://localhost:8000"

/-- An axios error as discriminated by the catch block of
`uploadAndProcessPDF`: a response arrived (`error.response`, optional
`detail`/`error` body fields), or the request was sent but no response
arrived (`error.request` — covers both network failures and timeouts,
distinguished only by `error.code`, which the handler never reads), or
the request could not be set up (`error.message`). -/
inductive AxiosError where
  | response (detail errorField : Option String)
  | request (code : Option String)
  | setup (message : String)

/-- api.js lines 42–51: the message of the `Error` thrown to the caller
of `uploadAndProcessPDF`. -/
def uploadErrorMessage (baseUrl : String) : AxiosError → String
  | .response detail errorField =>
      jsOrDefault (jsOrStr detail errorField) "Chyba při nahrávání souboru"
  | .request _ =>
      "Nelze se připojit k serveru. Zkontrolujte, zda běží backend na "
        ++ baseUrl
  | .setup message => jsOrDefault (some message) "Nastala neočekávaná chyba"

/-- An axios timeout: the request was sent, no response arrived before
the deadline, and the error carries code "ECONNABORTED". -/
def timeoutError : AxiosError := .request (some "ECONNABORTED")

/-- A plain transport failure: request sent, no response (e.g. connection
refused), code "ERR_NETWORK". -/
def transportError : AxiosError := .request (some "ERR_NETWORK")

/-- C6 counterexample: the claim says the timeout is caller-configurable;
but the request timeout of `uploadAndProcessPDF` never varies with any
caller input — it is the fixed instance timeout 300000 ms for every file
and every progress-callback choice (evaluated here at two concrete
distinct calls), so no caller input configures it. -/
theorem c6_counterexample :
    uploadTimeoutMs "a.pdf" true = 300000 ∧
    uploadTimeoutMs "b.pdf" false = 300000 ∧
    ¬∃ (f₁ : String) (c₁ : Bool) (f₂ : String) (c₂ : Bool),
      uploadTimeoutMs f₁ c₁ ≠ uploadTimeoutMs f₂ c₂ := by
  refine ⟨rfl, rfl, ?_⟩
  rintro ⟨f₁, c₁, f₂, c₂, h⟩
  exact h rfl

/-- C6 (amended): the AI-processing upload request is bounded by the
fixed 5-minute (300000 ms) axios instance timeout — not configurable by
the caller — and a timeout failure takes exactly the same
request-without-response error path as a transport failure, producing
the same thrown error message. -/
theorem c6_fixed_timeout_same_error_path (fileName : String)
    (hasCb : Bool) (baseUrl : String) :
    uploadTimeoutMs fileName hasCb = apiTimeoutMs ∧
    apiTimeoutMs = 300000 ∧
    uploadErrorMessage baseUrl timeoutError =
      uploadErrorMessage baseUrl transportError :=
  ⟨rfl, rfl, rfl⟩

/-! ## Auth service (src/unnamed/part_000)

The stored user entry is JSON; `JSON.parse` and `JSON.stringify` are
platform functions, modelled here by a complete JSON value parser
(`jsonParse`) and by the serializer for the one object shape the service
writes (`stringifyUser`, for field values needing no escaping). -/

/-- A JSON value as produced by `JSON.parse`. Numbers keep their source
lexeme; the auth service never computes with them. -/
inductive Json where
  | null
  | bool (b : Bool)
  | num (lexeme : String)
  | str (s : String)
  | arr (elems : List Json)
  | obj (fields : List (String × Json))

/-- JSON insignificant whitespace. -/
def isJsonWs (c : Char) : Bool :=
  c == ' ' || c == '\t' || c == '\n' || c == '\r'

def skipWs : List Char → List Char
  | [] => []
  | c :: rest => if isJsonWs c then skipWs rest else c :: rest

/-- JSON single-character string escapes. -/
def escChar : Char → Option Char
  | '"' => some '"'
  | '\\' => some '\\'
  | '/' => some '/'
  | 'b' => some (Char.ofNat 8)
  | 'f' => some (Char.ofNat 12)
  | 'n' => some '\n'
  | 'r' => some '\r'
  | 't' => some '\t'
  | _ => none

def hexVal (c : Char) : Option Nat :=
  if c.isDigit then some (c.toNat - '0'.toNat)
  else if 'a' ≤ c ∧ c ≤ 'f' then some (c.toNat - 'a'.toNat + 10)
  else if 'A' ≤ c ∧ c ≤ 'F' then some (c.toNat - 'A'.toNat + 10)
  else none

/-- Decode one escape sequence after a backslash. -/
def parseEsc : List Char → Option (Char × List Char)
  | [] => none
  | e :: rest =>
    if e = 'u' then
      match rest with
      | a :: b :: c :: d :: rest2 =>
        match hexVal a, hexVal b, hexVal c, hexVal d with
        | some ha, some hb, some hc, some hd =>
          some (Char.ofNat (((ha * 16 + hb) * 16 + hc) * 16 + hd), rest2)
        | _, _, _, _ => none
      | _ => none
    else
      match escChar e with
      | none => none
      | some ec => some (ec, rest)

/-- JSON string body after the opening quote; unescaped control
characters are rejected. The fuel bounds the characters consumed, so
`input.length + 1` always suffices. -/
def parseStrBody : Nat → List Char → Option (List Char × List Char)
  | 0, _ => none
  | _ + 1, [] => none
  | fuel + 1, c :: rest =>
    if c = '"' then some ([], rest)
    else if c = '\\' then
      match parseEsc rest with
      | none => none
      | some (ec, rest2) =>
        match parseStrBody fuel rest2 with
        | none => none
        | some (s, r) => some (ec :: s, r)
    else if c.toNat < 32 then none
    else
      match parseStrBody fuel rest with
      | none => none
      | some (s, r) => some (c :: s, r)

/-- Fractional part of a JSON number (possibly empty). -/
def parseFrac : List Char → Option (List Char × List Char)
  | cs =>
    match cs with
    | '.' :: rest =>
      match rest.span Char.isDigit with
      | ([], _) => none
      | (ds, r) => some ('.' :: ds, r)
    | _ => some ([], cs)

/-- Exponent part of a JSON number (possibly empty). -/
def parseExp : List Char → Option (List Char × List Char)
  | [] => some ([], [])
  | c :: rest =>
    if c = 'e' ∨ c = 'E' then
      let signAndRest : List Char × List Char :=
        match rest with
        | '+' :: r => (['+'], r)
        | '-' :: r => (['-'], r)
        | _ => ([], rest)
      match signAndRest.2.span Char.isDigit with
      | ([], _) => none
      | (ds, r) => some (c :: (signAndRest.1 ++ ds), r)
    else some ([], c :: rest)

/-- A JSON number lexeme: optional minus, integer part without leading
zeros, optional fraction and exponent. -/
def parseNumber (cs : List Char) : Option (String × List Char) :=
  let signAndRest : List Char × List Char :=
    match cs with
    | '-' :: rest => (['-'], rest)
    | _ => ([], cs)
  match signAndRest.2.span Char.isDigit with
  | ([], _) => none
  | (intPart, cs2) =>
    if 1 < intPart.length ∧ intPart.head? = some '0' then none
    else
      match parseFrac cs2 with
      | none => none
      | some (fracPart, cs3) =>
        match parseExp cs3 with
        | none => none
        | some (expPart, cs4) =>
          some (String.mk (signAndRest.1 ++ intPart ++ fracPart ++ expPart), cs4)

mutual
/-- One JSON value. Fueled mutual recursion; every recursive call first
consumes at least one character, so fuel `input.length + 1` suffices. -/
def parseVal : Nat → List Char → Option (Json × List Char)
  | 0, _ => none
  | fuel + 1, cs =>
    match skipWs cs with
    | [] => none
    | c :: rest =>
      if c = '"' then
        match parseStrBody (rest.length + 1) rest with
        | none => none
        | some (s, r) => some (Json.str (String.mk s), r)
      else if c = '[' then
        match skipWs rest with
        | [] => none
        | d :: rest2 =>
          if d = ']' then some (Json.arr [], rest2)
          else
            match parseVal fuel (d :: rest2) with
            | none => none
            | some (v, r) =>
              match parseArrRest fuel r with
              | none => none
              | some (vs, r2) => some (Json.arr (v :: vs), r2)
      else if c = '{' then
        match skipWs rest with
        | [] => none
        | d :: rest2 =>
          if d = '}' then some (Json.obj [], rest2)
          else
            match parsePair fuel (d :: rest2) with
            | none => none
            | some (kv, r) =>
              match parseObjRest fuel r with
              | none => none
              | some (kvs, r2) => some (Json.obj (kv :: kvs), r2)
      else if c = 'n' then
        match rest with
        | 'u' :: 'l' :: 'l' :: r => some (Json.null, r)
        | _ => none
      else if c = 't' then
        match rest with
        | 'r' :: 'u' :: 'e' :: r => some (Json.bool true, r)
        | _ => none
      else if c = 'f' then
        match rest with
        | 'a' :: 'l' :: 's' :: 'e' :: r => some (Json.bool false, r)
        | _ => none
      else if c = '-' ∨ c.isDigit then
        match parseNumber (c :: rest) with
        | none => none
        | some (lex, r) => some (Json.num lex, r)
      else none

/-- One `"key": value` member of a JSON object. -/
def parsePair : Nat → List Char → Option ((String × Json) × List Char)
  | 0, _ => none
  | fuel + 1, cs =>
    match skipWs cs with
    | [] => none
    | c :: rest =>
      if c = '"' then
        match parseStrBody (rest.length + 1) rest with
        | none => none
        | some (k, r) =>
          match skipWs r with
          | [] => none
          | d :: r2 =>
            if d = ':' then
              match parseVal fuel r2 with
              | none => none
              | some (v, r3) => some ((String.mk k, v), r3)
            else none
      else none

/-- Remaining elements of a JSON array after the first. -/
def parseArrRest : Nat → List Char → Option (List Json × List Char)
  | 0, _ => none
  | fuel + 1, cs =>
    match skipWs cs with
    | [] => none
    | c :: rest =>
      if c = ']' then some ([], rest)
      else if c = ',' then
        match parseVal fuel rest with
        | none => none
        | some (v, r) =>
          match parseArrRest fuel r with
          | none => none
          | some (vs, r2) => some (v :: vs, r2)
      else none

/-- Remaining members of a JSON object after the first. -/
def parseObjRest : Nat → List Char → Option (List (String × Json) × List Char)
  | 0, _ => none
  | fuel + 1, cs =>
    match skipWs cs with
    | [] => none
    | c :: rest =>
      if c = '}' then some ([], rest)
      else if c = ',' then
        match parsePair fuel rest with
        | none => none
        | some (kv, r) =>
          match parseObjRest fuel r with
          | none => none
          | some (kvs, r2) => some (kv :: kvs, r2)
      else none
end

/-- Model of the JS `JSON.parse`: one JSON value followed by at most
whitespace; a syntax error (JS throws, the caller catches) is `none`. -/
def jsonParse (s : String) : Option Json :=
  match parseVal (s.length + 1) s.data with
  | none => none
  | some (v, rest) => if skipWs rest = [] then some v else none

/-- Characters that serialize into a JSON string verbatim: not a quote,
not a backslash, not a control character. -/
def cleanChar (c : Char) : Bool :=
  !(c == '"') && !(c == '\\') && decide (32 ≤ c.toNat)

/-- All characters of the string are escape-free. -/
def StrClean (s : String) : Bool := s.data.all cleanChar

/-- Model of `JSON.stringify({ username: user, expires_at })` as written
by `login` (part_000 line 44), for field values needing no escaping. -/
def stringifyUser (username expiresAt : String) : String :=
  "\x7b\"username\":\"" ++ username ++ "\",\"expires_at\":\"" ++ expiresAt ++ "\"\x7d"

theorem skipWs_not_ws (c : Char) (rest : List Char)
    (h : isJsonWs c = false) : skipWs (c :: rest) = c :: rest := by
  simp [skipWs, h]

theorem parseStrBody_clean (rest : List Char) :
    ∀ (cs : List Char) (fuel : Nat), cs.length < fuel →
      cs.all cleanChar = true →
      parseStrBody fuel (cs ++ '"' :: rest) = some (cs, rest) := by
  intro cs
  induction cs with
  | nil =>
    intro fuel hf _
    match fuel, hf with
    | f + 1, _ => rfl
  | cons c t ih =>
    intro fuel hf h
    rw [List.all_cons, Bool.and_eq_true] at h
    obtain ⟨hc, ht⟩ := h
    rw [cleanChar, Bool.and_eq_true, Bool.and_eq_true] at hc
    obtain ⟨⟨h1, h2⟩, h3⟩ := hc
    have hq : ¬(c = '"') := by simpa using h1
    have hb : ¬(c = '\\') := by simpa using h2
    have hv : ¬(c.toNat < 32) := by
      have := of_decide_eq_true h3
      omega
    match fuel, hf with
    | f + 1, hf2 =>
      have hlen : t.length < f := by
        simp only [List.length_cons] at hf2
        omega
      have hrec := ih f hlen ht
      simp [parseStrBody, hq, hb, hv, hrec]

theorem parseVal_str (f : Nat) (s : String) (rest : List Char)
    (h : s.data.all cleanChar = true) :
    parseVal (f + 1) ('"' :: (s.data ++ '"' :: rest)) =
      some (Json.str s, rest) := by
  have hs := parseStrBody_clean rest s.data
    ((s.data ++ '"' :: rest).length + 1)
    (by simp [List.length_append]; omega) h
  have hw : ∀ X : List Char, skipWs ('"' :: X) = '"' :: X :=
    fun X => skipWs_not_ws '"' X (by decide)
  simp only [parseVal, hw, hs]
  simp [String.mk]

theorem parsePair_clean (f : Nat) (keyChars : List Char) (value : String)
    (r : List Char) (hk : keyChars.all cleanChar = true)
    (hv : value.data.all cleanChar = true) :
    parsePair (f + 1 + 1)
      ('"' :: (keyChars ++ '"' :: ':' :: '"' :: (value.data ++ '"' :: r))) =
      some ((String.mk keyChars, Json.str value), r) := by
  have hkey := parseStrBody_clean (':' :: '"' :: (value.data ++ '"' :: r))
    keyChars
    ((keyChars ++ '"' :: ':' :: '"' :: (value.data ++ '"' :: r)).length + 1)
    (by simp [List.length_append]; omega) hk
  have hval := parseVal_str f value r hv
  have hw : ∀ X : List Char, skipWs ('"' :: X) = '"' :: X :=
    fun X => skipWs_not_ws '"' X (by decide)
  have hw2 : ∀ X : List Char, skipWs (':' :: X) = ':' :: X :=
    fun X => skipWs_not_ws ':' X (by decide)
  simp only [parsePair, hw, hw2, hkey, hval]
  simp

theorem parseObjRest_pair (f : Nat) (keyChars : List Char) (value : String)
    (r : List Char) (hk : keyChars.all cleanChar = true)
    (hv : value.data.all cleanChar = true) :
    parseObjRest (f + 1 + 1 + 1)
      (',' :: '"' :: (keyChars ++ '"' :: ':' :: '"' ::
        (value.data ++ '"' :: '}' :: r))) =
      some ([(String.mk keyChars, Json.str value)], r) := by
  have hp := parsePair_clean f keyChars value ('}' :: r) hk hv
  have hw : ∀ X : List Char, skipWs (',' :: X) = ',' :: X :=
    fun X => skipWs_not_ws ',' X (by decide)
  have hw2 : ∀ X : List Char, skipWs ('}' :: X) = '}' :: X :=
    fun X => skipWs_not_ws '}' X (by decide)
  simp only [parseObjRest, hw, hw2, hp]
  simp

theorem parseVal_userObjChars (f : Nat) (username expiresAt : String)
    (hu : username.data.all cleanChar = true)
    (he : expiresAt.data.all cleanChar = true) :
    parseVal (f + 1 + 1 + 1 + 1)
      ('{' :: '"' :: (['u', 's', 'e', 'r', 'n', 'a', 'm', 'e'] ++
        '"' :: ':' :: '"' :: (username.data ++
          '"' :: ',' :: '"' ::
            (['e', 'x', 'p', 'i', 'r', 'e', 's', '_', 'a', 't'] ++
              '"' :: ':' :: '"' :: (expiresAt.data ++ '"' :: '}' :: []))))) =
      some (Json.obj [("username", Json.str username),
        ("expires_at", Json.str expiresAt)], []) := by
  have hpair1 := parsePair_clean (f + 1)
    ['u', 's', 'e', 'r', 'n', 'a', 'm', 'e'] username
    (',' :: '"' :: (['e', 'x', 'p', 'i', 'r', 'e', 's', '_', 'a', 't'] ++
      '"' :: ':' :: '"' :: (expiresAt.data ++ '"' :: '}' :: [])))
    (by decide) hu
  have hrest := parseObjRest_pair f
    ['e', 'x', 'p', 'i', 'r', 'e', 's', '_', 'a', 't'] expiresAt []
    (by decide) he
  have hw : ∀ X : List Char, skipWs ('{' :: X) = '{' :: X :=
    fun X => skipWs_not_ws '{' X (by decide)
  have hw2 : ∀ X : List Char, skipWs ('"' :: X) = '"' :: X :=
    fun X => skipWs_not_ws '"' X (by decide)
  simp only [parseVal, hw, hw2, hpair1, hrest]
  simp [String.mk]

theorem stringifyUser_data (username expiresAt : String) :
    (stringifyUser username expiresAt).data =
      '{' :: '"' :: (['u', 's', 'e', 'r', 'n', 'a', 'm', 'e'] ++
        '"' :: ':' :: '"' :: (username.data ++
          '"' :: ',' :: '"' ::
            (['e', 'x', 'p', 'i', 'r', 'e', 's', '_', 'a', 't'] ++
              '"' :: ':' :: '"' :: (expiresAt.data ++ '"' :: '}' :: [])))) := by
  have h1 : (stringifyUser username expiresAt).data =
      (((("\x7b\"username\":\"".data ++ username.data) ++
        "\",\"expires_at\":\"".data) ++ expiresAt.data) ++ "\"\x7d".data) := rfl
  rw [h1]
  have h2 : "\x7b\"username\":\"".data =
      '{' :: '"' :: 'u' :: 's' :: 'e' :: 'r' :: 'n' :: 'a' :: 'm' :: 'e' ::
        '"' :: ':' :: '"' :: [] := rfl
  have h3 : "\",\"expires_at\":\"".data =
      '"' :: ',' :: '"' :: 'e' :: 'x' :: 'p' :: 'i' :: 'r' :: 'e' :: 's' ::
        '_' :: 'a' :: 't' :: '"' :: ':' :: '"' :: [] := rfl
  have h4 : "\"\x7d".data = '"' :: '}' :: [] := rfl
  rw [h2, h3, h4]
  simp [List.append_assoc]

theorem stringifyUser_length (username expiresAt : String) :
    (stringifyUser username expiresAt).length =
      31 + username.length + expiresAt.length := by
  have e1 : "\x7b\"username\":\"".length = 13 := rfl
  have e2 : "\",\"expires_at\":\"".length = 16 := rfl
  have e3 : "\"\x7d".length = 2 := rfl
  simp [stringifyUser, String.length_append, e1, e2, e3]
  omega

theorem stringifyUser_ne_empty (username expiresAt : String) :
    stringifyUser username expiresAt ≠ "" := by
  intro h
  have hlen := congrArg String.length h
  rw [stringifyUser_length username expiresAt] at hlen
  simp at hlen

/-- `JSON.parse` inverts the `login` serialization: for escape-free field
values, parsing the stored user entry recovers the two-field object. -/
theorem jsonParse_stringifyUser (username expiresAt : String)
    (hu : StrClean username = true) (he : StrClean expiresAt = true) :
    jsonParse (stringifyUser username expiresAt) =
      some (Json.obj [("username", Json.str username),
        ("expires_at", Json.str expiresAt)]) := by
  have hlen := stringifyUser_length username expiresAt
  have hf : (stringifyUser username expiresAt).length + 1 =
      ((stringifyUser username expiresAt).length - 3) + 1 + 1 + 1 + 1 := by
    omega
  have hval := parseVal_userObjChars
    ((stringifyUser username expiresAt).length - 3) username expiresAt hu he
  unfold jsonParse
  rw [hf, stringifyUser_data, hval]
  rfl

/-- A DOM Storage object (`localStorage` / `sessionStorage`): a map from
keys to stored strings. -/
def Storage := String → Option String

/-- `storage.getItem(key)`: the stored string or null. -/
def Storage.getItem (st : Storage) (key : String) : Option String := st key

/-- `storage.setItem(key, value)`. -/
def Storage.setItem (st : Storage) (key value : String) : Storage :=
  fun k => if k = key then some value else st k

/-- `storage.removeItem(key)`. -/
def Storage.removeItem (st : Storage) (key : String) : Storage :=
  fun k => if k = key then none else st k

/-- An empty storage. -/
def Storage.empty : Storage := fun _ => none

/-- The browser's two storages, as the auth service sees them. -/
structure BrowserStorage where
  localStorage : Storage
  sessionStorage : Storage

/-- part_000 line 7. -/
def TOKEN_KEY : String := "auth_token"

/-- part_000 line 8. -/
def USER_KEY : String := "auth_user"

/-- part_000 line 9. -/
def REMEMBER_KEY : String := "auth_remember"

/-- part_000 lines 26–46 (`login`, success path, storage effect): the
remember flag is written to localStorage (`rememberMe.toString()`), then
the token and the serialized user are written to localStorage when
remembering, to sessionStorage otherwise. The network call is abstracted
to its response fields. -/
def loginStore (bs : BrowserStorage) (token username expiresAt : String)
    (rememberMe : Bool) : BrowserStorage :=
  let bs1 : BrowserStorage :=
    { bs with localStorage :=
        bs.localStorage.setItem REMEMBER_KEY (cond rememberMe "true" "false") }
  let userJson := stringifyUser username expiresAt
  if rememberMe then
    { bs1 with localStorage :=
        ((bs1.localStorage.setItem TOKEN_KEY token).setItem USER_KEY userJson) }
  else
    { bs1 with sessionStorage :=
        ((bs1.sessionStorage.setItem TOKEN_KEY token).setItem USER_KEY userJson) }

/-- part_000 lines 61–68 (`logout`): token, user and remember flag are
removed from localStorage; token and user from sessionStorage. -/
def logout (bs : BrowserStorage) : BrowserStorage :=
  { localStorage :=
      (((bs.localStorage.removeItem TOKEN_KEY).removeItem
        USER_KEY).removeItem REMEMBER_KEY),
    sessionStorage :=
      ((bs.sessionStorage.removeItem TOKEN_KEY).removeItem USER_KEY) }

/-- part_000 lines 74–77 (`getToken`): the local token, else the session
token (JS `||`: null and the empty string fall through). -/
def getToken (bs : BrowserStorage) : Option String :=
  jsOrStr (bs.localStorage.getItem TOKEN_KEY)
    (bs.sessionStorage.getItem TOKEN_KEY)

/-- part_000 lines 83–92 (`getUser`): the stored user entry from
localStorage, else sessionStorage (JS `||`); a falsy entry gives null,
otherwise the entry is parsed with `JSON.parse`, and the catch turns a
parse failure into null. -/
def getUser (bs : BrowserStorage) : Option Json :=
  let userStr := jsOrStr (bs.localStorage.getItem USER_KEY)
    (bs.sessionStorage.getItem USER_KEY)
  if jsTruthyStr userStr then jsonParse (userStr.getD "") else none

/-- JS truthiness of a parsed JSON value (plus `none` for `undefined`):
null, false, zero and the empty string are falsy. -/
def jsTruthyJson : Option Json → Bool
  | none => false
  | some Json.null => false
  | some (Json.bool b) => b
  | some (Json.num lexeme) =>
      !(lexeme == "0" || lexeme == "-0" || lexeme == "0.0")
  | some (Json.str s) => !(s == "")
  | some (Json.arr _) => true
  | some (Json.obj _) => true

/-- JS property access `value.key` on a parsed JSON value: a field of an
object, `undefined` otherwise. -/
def jsonGetField (j : Json) (key : String) : Option Json :=
  match j with
  | Json.obj fields => List.lookup key fields
  | _ => none

/-- part_000 lines 98–116 (`isAuthenticated`): false without a truthy
token, a stored user and a truthy `expires_at`; an expired token
(`now >= new Date(expires_at)`) triggers `logout()` and yields false.
`new Date` is abstracted by `dateParse` (`none` = Invalid Date, whose
NaN comparison is false, so it does not count as expired). Returns the
flag together with the possibly-cleared storage. -/
def isAuthenticated (dateParse : String → Option Int) (now : Int)
    (bs : BrowserStorage) : Bool × BrowserStorage :=
  match getToken bs with
  | none => (false, bs)
  | some token =>
    if token = "" then (false, bs)
    else
      match getUser bs with
      | none => (false, bs)
      | some user =>
        if !(jsTruthyJson (some user)) then (false, bs)
        else
          match jsonGetField user "expires_at" with
          | none => (false, bs)
          | some ea =>
            if !(jsTruthyJson (some ea)) then (false, bs)
            else
              match ea with
              | Json.str s =>
                match dateParse s with
                | none => (true, bs)
                | some t => if now ≥ t then (false, logout bs) else (true, bs)
              | _ => (true, bs)

/-- C8: `getUser` is total and never throws: when no user entry exists in
either storage it returns null; when the effective entry (localStorage
preferred, JS `||` fallback) is the well-formed JSON user object written
by `login` — in either storage — it returns exactly the parsed
`{username, expires_at}` object; and when the effective entry is
malformed JSON it returns null (the catch). -/
theorem c8_getUser_total (bs : BrowserStorage) :
    (bs.localStorage.getItem USER_KEY = none →
      bs.sessionStorage.getItem USER_KEY = none → getUser bs = none) ∧
    (∀ username expiresAt : String,
      StrClean username = true → StrClean expiresAt = true →
      bs.localStorage.getItem USER_KEY =
        some (stringifyUser username expiresAt) →
      getUser bs = some (Json.obj [("username", Json.str username),
        ("expires_at", Json.str expiresAt)])) ∧
    (∀ username expiresAt : String,
      StrClean username = true → StrClean expiresAt = true →
      bs.localStorage.getItem USER_KEY = none →
      bs.sessionStorage.getItem USER_KEY =
        some (stringifyUser username expiresAt) →
      getUser bs = some (Json.obj [("username", Json.str username),
        ("expires_at", Json.str expiresAt)])) ∧
    (∀ s, jsOrStr (bs.localStorage.getItem USER_KEY)
        (bs.sessionStorage.getItem USER_KEY) = some s →
      jsonParse s = none → getUser bs = none) := by
  refine ⟨?_, ?_, ?_, ?_⟩
  · intro h1 h2
    simp [getUser, h1, h2, jsOrStr, jsTruthyStr]
  · intro username expiresAt hu he hloc
    have hne := stringifyUser_ne_empty username expiresAt
    have hparse := jsonParse_stringifyUser username expiresAt hu he
    simp [getUser, hloc, jsOrStr, jsTruthyStr, hne, hparse]
  · intro username expiresAt hu he hloc hses
    have hne := stringifyUser_ne_empty username expiresAt
    have hparse := jsonParse_stringifyUser username expiresAt hu he
    simp [getUser, hloc, hses, jsOrStr, jsTruthyStr, hne, hparse]
  · intro s heff hbad
    simp only [getUser, heff]
    by_cases hs : jsTruthyStr (some s) = true
    · simp [hs, hbad]
    · rw [if_neg hs]

theorem c8_getUser_total_witness :
    getUser ⟨Storage.empty.setItem USER_KEY
        (stringifyUser "bob" "2026-01-01T00:00:00"), Storage.empty⟩ =
      some (Json.obj [("username", Json.str "bob"),
        ("expires_at", Json.str "2026-01-01T00:00:00")]) ∧
    getUser ⟨Storage.empty, Storage.empty⟩ = none ∧
    getUser ⟨Storage.empty.setItem USER_KEY "\x7boops", Storage.empty⟩ = none :=
  ⟨(c8_getUser_total _).2.1 "bob" "2026-01-01T00:00:00" (by decide)
      (by decide) rfl,
   (c8_getUser_total _).1 rfl rfl,
   (c8_getUser_total _).2.2.2 "\x7boops" rfl rfl⟩

/-- C9: after any `login` (either storage, any rememberMe) followed by
`logout`, no credential survives: both storages lack the token and user
entries, `getToken()` is null and `isAuthenticated()` is false for every
clock and date parser. -/
theorem c9_logout_clears_login (bs : BrowserStorage)
    (token username expiresAt : String) (rememberMe : Bool)
    (dateParse : String → Option Int) (now : Int) :
    getToken (logout (loginStore bs token username expiresAt rememberMe)) =
      none ∧
    (logout (loginStore bs token username expiresAt
      rememberMe)).localStorage.getItem TOKEN_KEY = none ∧
    (logout (loginStore bs token username expiresAt
      rememberMe)).localStorage.getItem USER_KEY = none ∧
    (logout (loginStore bs token username expiresAt
      rememberMe)).sessionStorage.getItem TOKEN_KEY = none ∧
    (logout (loginStore bs token username expiresAt
      rememberMe)).sessionStorage.getItem USER_KEY = none ∧
    (isAuthenticated dateParse now
      (logout (loginStore bs token username expiresAt rememberMe))).1 =
      false := by
  have htokL : (logout (loginStore bs token username expiresAt
      rememberMe)).localStorage.getItem TOKEN_KEY = none := by
    simp [logout, Storage.getItem, Storage.removeItem, TOKEN_KEY, USER_KEY,
      REMEMBER_KEY]
  have htokS : (logout (loginStore bs token username expiresAt
      rememberMe)).sessionStorage.getItem TOKEN_KEY = none := by
    simp [logout, Storage.getItem, Storage.removeItem, TOKEN_KEY, USER_KEY]
  have husrL : (logout (loginStore bs token username expiresAt
      rememberMe)).localStorage.getItem USER_KEY = none := by
    simp [logout, Storage.getItem, Storage.removeItem, TOKEN_KEY, USER_KEY,
      REMEMBER_KEY]
  have husrS : (logout (loginStore bs token username expiresAt
      rememberMe)).sessionStorage.getItem USER_KEY = none := by
    simp [logout, Storage.getItem, Storage.removeItem, TOKEN_KEY, USER_KEY]
  have htok : getToken (logout (loginStore bs token username expiresAt
      rememberMe)) = none := by
    rw [getToken, htokL, htokS]
    rfl
  refine ⟨htok, htokL, husrL, htokS, husrS, ?_⟩
  rw [isAuthenticated, htok]
